import Mathlib

/-!
Verification development for the readeckbot source (`bot.py`), a Telegram
bridge to a Readeck instance.  The Python functions are shallowly embedded:
text is `List Char`, the regular-expression operations of
`extract_url_title_labels` are translated into explicit scans, the persistent
token table is an association list together with its persisted snapshot, and
the effectful handlers are pure functions from an environment of backend
responses to the trace of externally visible actions.

Character classes are modelled over the ASCII fragment of Python's `str`/`re`
semantics (`\s`, `\w`, `str.strip`), which covers every concrete input used
below.  Recursions that consume a variable number of characters per step are
written with an explicit fuel argument equal to the input length; each step
consumes at least one character, so that fuel is never exhausted, and the
definitions stay structurally recursive (hence kernel-evaluable).
-/

/-- ASCII whitespace, as in Python's `\s` and `str.strip`:
space, tab, newline, carriage return, vertical tab, form feed. -/
def isSpace (c : Char) : Bool :=
  c == ' ' || c == '\t' || c == '\n' || c == '\r' ||
  c == Char.ofNat 11 || c == Char.ofNat 12

/-- ASCII word character, as in Python's `\w`: letters, digits, underscore. -/
def isWordChar (c : Char) : Bool :=
  c.isAlphanum || c == '_'

/-- Python's `str.strip()`: drop leading and trailing whitespace. -/
def stripChars (s : List Char) : List Char :=
  ((s.dropWhile isSpace).reverse.dropWhile isSpace).reverse

/-- One step of Python's `str.replace(pat, "")`: fuel-structural scan that
deletes every non-overlapping occurrence of `pat`, left to right.  A step
consumes at least one character, so fuel `s.length` suffices. -/
def removeAllAux (pat : List Char) : Nat → List Char → List Char
  | _, [] => []
  | 0, s => s
  | n + 1, c :: rest =>
    if pat.isPrefixOf (c :: rest) && !pat.isEmpty then
      removeAllAux pat n ((c :: rest).drop pat.length)
    else
      c :: removeAllAux pat n rest

/-- Python's `s.replace(pat, "")` for a non-empty pattern. -/
def removeAll (pat s : List Char) : List Char :=
  removeAllAux pat s.length s

/-- Scan of `re.findall(r'\+(\w+)', s)`: at each position, a `+` followed by a
maximal non-empty run of word characters yields that run and the scan resumes
after it; otherwise the scan advances one character. -/
def findLabelsAux : Nat → List Char → List (List Char)
  | _, [] => []
  | 0, _ => []
  | n + 1, c :: rest =>
    if c == '+' && !(rest.takeWhile isWordChar).isEmpty then
      rest.takeWhile isWordChar :: findLabelsAux n (rest.dropWhile isWordChar)
    else
      findLabelsAux n rest

/-- Python's `re.findall(r'\+(\w+)', s)`. -/
def findLabels (s : List Char) : List (List Char) :=
  findLabelsAux s.length s

/-- The characters of the scheme prefix `"http://"`. -/
def httpPrefix : List Char := "http://".data

/-- The characters of the scheme prefix `"https://"`. -/
def httpsPrefix : List Char := "https://".data

/-- The match of `https?://[^\s]+` anchored at the start of `s`, if any:
the scheme prefix followed by the maximal run of non-whitespace characters. -/
def matchUrlAt (s : List Char) : Option (List Char) :=
  if httpsPrefix.isPrefixOf s then
    let after := (s.drop 8).takeWhile (fun c => !isSpace c)
    if after.isEmpty then none else some (httpsPrefix ++ after)
  else if httpPrefix.isPrefixOf s then
    let after := (s.drop 7).takeWhile (fun c => !isSpace c)
    if after.isEmpty then none else some (httpPrefix ++ after)
  else none

/-- Python's `re.search(r'(https?://[^\s]+)', s)`: the leftmost match. -/
def findUrl : List Char → Option (List Char)
  | [] => none
  | c :: rest =>
    match matchUrlAt (c :: rest) with
    | some u => some u
    | none => findUrl rest

/-- Embedding of `extract_url_title_labels` (bot.py lines 109-121): find the
first URL match, delete every occurrence of it, strip, collect the `+word`
labels, delete every occurrence of each `+label` substring in order, and strip
the rest into the title. -/
def extract_url_title_labels (text : List Char) :
    Option (List Char) × Option (List Char) × List (List Char) :=
  match findUrl text with
  | none => (none, none, [])
  | some url =>
    let after_url := stripChars (removeAll url text)
    let labels := findLabels after_url
    let stripped := labels.foldl (fun acc lbl => removeAll ('+' :: lbl) acc) after_url
    let title := stripChars stripped
    (some url, if title.isEmpty then none else some title, labels)

example :
    extract_url_title_labels ("https://x.com/a Title Here +news +tech".data) =
      (some "https://x.com/a".data, some "Title Here".data,
        ["news".data, "tech".data]) := by decide

example : extract_url_title_labels ("no url here".data) = (none, none, []) := by
  decide

example :
    extract_url_title_labels ("+a +ab https://x".data) =
      (some "https://x".data, some "b".data, ["a".data, "ab".data]) := by decide

/-- Substring search: does `pat` occur inside `s`?  Mirrors `re.search` of a
plain-text pattern (used for `re.search(r'https?://', text)` and for checking
what a reply message mentions). -/
def listContains (pat : List Char) : List Char → Bool
  | [] => pat.isEmpty
  | c :: rest => pat.isPrefixOf (c :: rest) || listContains pat rest

/-- Python's `re.search(r'https?://', text)` as a Bool: either scheme prefix
occurs somewhere in the text. -/
def hasHttpToken (s : List Char) : Bool :=
  listContains ("http://".data) s || listContains ("https://".data) s

/-- Truthiness of `dict.get(...)` in Python: `None` and the empty string are
falsy, every other string is truthy. -/
def pyTruthy : Option String → Bool
  | none => false
  | some s => !s.isEmpty

/-- Python's `str.strip()` on a `String`. -/
def pyStrip (s : String) : String :=
  ⟨stripChars s.data⟩

/-- The in-memory table of `PersistentDict`: user id (stringified) to token. -/
abbrev CredentialStore := List (String × String)

/-- `dict[k] = v`: replace the binding of `k` or append a new one. -/
def storeSet (s : CredentialStore) (k v : String) : CredentialStore :=
  match s with
  | [] => [(k, v)]
  | (k0, v0) :: rest => if k0 = k then (k, v) :: rest else (k0, v0) :: storeSet rest k v

/-- `dict.get(k)`: the bound value, or `none`. -/
def storeGet (s : CredentialStore) (k : String) : Option String :=
  match s with
  | [] => none
  | (k0, v0) :: rest => if k0 = k then some v0 else storeGet rest k

/-- Embedding of `PersistentDict` (bot.py lines 44-68): the in-memory dict
together with the persisted JSON snapshot.  `file = some t` stands for a file
holding the JSON serialization of table `t`; `none` stands for a missing or
unparseable file.  JSON round-tripping of a string-to-string table is modelled
as the identity, so a snapshot written by `_save` reloads as the same table. -/
structure PersistentDict where
  table : CredentialStore
  file : Option CredentialStore
  deriving DecidableEq

/-- `__setitem__`: update the dict, then `_save` rewrites the whole snapshot
before the operation returns. -/
def PersistentDict.setItem (d : PersistentDict) (k v : String) : PersistentDict :=
  { table := storeSet d.table k v, file := some (storeSet d.table k v) }

/-- `dict.get(k)` on the live instance. -/
def PersistentDict.getItem (d : PersistentDict) (k : String) : Option String :=
  storeGet d.table k

/-- `__init__(filename)`: start empty; if the file exists and parses to a
dict, load it; corruption or absence degrades to the empty table. -/
def PersistentDict.load (file : Option CredentialStore) : PersistentDict :=
  { table := match file with | some data => data | none => [], file := file }

/-- Result of parsing the `/register` arguments (bot.py lines 151-170):
either the usage reply, or the `(username, password)` pair handed to
`register_and_fetch_token`. -/
inductive RegisterParse where
  | usage (msg : String)
  | run (username password : String)
  deriving DecidableEq

/-- The usage reply of `register_command`. -/
def registerUsageMsg : String :=
  "Usage: /register <user> <password>\nUsage: /register <password> (your Telegram user ID will be used as username)."

/-- Embedding of `register_command` (bot.py lines 151-170): zero arguments use
the user id for both fields, one argument is the password, two are explicit
username and password, anything else is the usage error and no call is made. -/
def register_command (userId : String) (args : List String) : RegisterParse :=
  match args with
  | [] => RegisterParse.run userId userId
  | [p] => RegisterParse.run userId p
  | [u, p] => RegisterParse.run u p
  | _ :: _ :: _ :: _ => RegisterParse.usage registerUsageMsg

/-- The usage reply of `token_command`. -/
def tokenUsageMsg : String := "Usage: /token <YOUR_READECK_TOKEN>"

/-- The confirmation reply of `token_command`. -/
def tokenSavedMsg : String := "Your Readeck token has been saved."

/-- Embedding of `token_command` (bot.py lines 172-184): exactly one argument
stores that token under the requester's user id (persisting the snapshot) and
confirms; any other arity replies with the usage message and changes nothing. -/
def token_command (d : PersistentDict) (userId : String) (args : List String) :
    PersistentDict × String :=
  match args with
  | [token] => (d.setItem userId token, tokenSavedMsg)
  | _ => (d, tokenUsageMsg)

example : token_command (PersistentDict.load none) "7" ["abc"] =
    (⟨[("7", "abc")], some [("7", "abc")]⟩, tokenSavedMsg) := by decide

/-- Embedding of the argument list built on bot.py line 193:
`["readeck", "user"] + ['-config', READECK_CONFIG] if READECK_CONFIG else [] + ["-u", username, "-p", password]`.
Python parses this as a conditional expression
`(["readeck", "user"] + ['-config', cfg]) if cfg else ([] + ["-u", u, "-p", p])`,
which is what this definition renders. -/
def buildRegisterCommand (config : Option String) (username password : String) :
    List String :=
  if pyTruthy config then
    ["readeck", "user"] ++ ["-config", config.getD ""]
  else
    [] ++ ["-u", username, "-p", password]

/-- Modelled from the spec: the corrected contract for the local provisioning
invocation — always `["readeck", "user"]` followed by `["-u", username, "-p",
password]`, with `["-config", path]` inserted immediately after `user` exactly
when a configuration path is configured.  This is the spec's stated intent,
against which `buildRegisterCommand` (the code) is compared. -/
def intendedRegisterCommand (config : Option String) (username password : String) :
    List String :=
  ["readeck", "user"] ++
    (if pyTruthy config then ["-config", config.getD ""] else []) ++
    ["-u", username, "-p", password]

/-- The container fallback invocation (bot.py lines 198-201). -/
def dockerCommand (username password : String) : List String :=
  ["docker", "run", "codeberg.org/readeck/readeck:latest",
   "readeck", "user", "-u", username, "-p", password]

/-- Outcome of a `subprocess.run`: exit code and standard error. -/
structure ProcResult where
  returncode : Int
  stderr : String
  deriving DecidableEq

/-- Response of `POST /api/auth`: status code and the JSON body's `token`
field (`none` when the field is absent). -/
structure AuthResponse where
  status : Nat
  token? : Option String
  deriving DecidableEq

/-- Environment of `register_and_fetch_token`: what the CLI run, the Docker
run and the auth exchange would return if performed. -/
structure RegEnv where
  cliResult : ProcResult
  dockerResult : ProcResult
  authResponse : AuthResponse
  deriving DecidableEq

/-- Externally visible actions of the registration flow, in order. -/
inductive RegEvent where
  | runCli (cmd : List String)
  | runDocker (cmd : List String)
  | postAuth (username password : String)
  | storeWrite (key token : String)
  | reply (msg : String)
  deriving DecidableEq

/-- The reply when both provisioning paths and therefore registration fail. -/
def registrationFailedMsg (stderr : String) : String :=
  "Registration failed: " ++ pyStrip stderr

/-- The reply when the auth exchange succeeds and the token is stored. -/
def registrationOkMsg : String := "Registration successful! Your token has been saved."

/-- The reply when the auth exchange returns 2xx without a usable token. -/
def tokenMissingMsg : String := "Registration succeeded but failed to retrieve token."

/-- The generic reply for a failed backend call. -/
def troublesMsg : String := "Having troubles now... try later."

/-- The token-exchange tail of `register_and_fetch_token` (bot.py lines
210-226): post to `/api/auth`; on 2xx with a truthy `token` store it under the
requester's user id and confirm, on 2xx without one report the missing token,
otherwise report generic trouble. -/
def authExchange (env : RegEnv) (d : PersistentDict) (userId username password : String) :
    List RegEvent × PersistentDict :=
  let r := env.authResponse
  if 200 ≤ r.status ∧ r.status < 300 then
    match r.token? with
    | some t =>
      if t.isEmpty then
        ([RegEvent.postAuth username password, RegEvent.reply tokenMissingMsg], d)
      else
        ([RegEvent.postAuth username password, RegEvent.storeWrite userId t,
          RegEvent.reply registrationOkMsg], d.setItem userId t)
    | none =>
        ([RegEvent.postAuth username password, RegEvent.reply tokenMissingMsg], d)
  else
    ([RegEvent.postAuth username password, RegEvent.reply troublesMsg], d)

/-- Embedding of `register_and_fetch_token` (bot.py lines 186-226): run the
CLI command; on a non-zero exit run the Docker fallback; if that also exits
non-zero, reply with the Docker stderr and stop; otherwise perform the token
exchange (`authExchange`). -/
def register_and_fetch_token (config : Option String) (env : RegEnv)
    (d : PersistentDict) (userId username password : String) :
    List RegEvent × PersistentDict :=
  let command := buildRegisterCommand config username password
  if env.cliResult.returncode ≠ 0 then
    if env.dockerResult.returncode ≠ 0 then
      ([RegEvent.runCli command, RegEvent.runDocker (dockerCommand username password),
        RegEvent.reply (registrationFailedMsg env.dockerResult.stderr)], d)
    else
      let r := authExchange env d userId username password
      (RegEvent.runCli command :: RegEvent.runDocker (dockerCommand username password) :: r.1, r.2)
  else
    let r := authExchange env d userId username password
    (RegEvent.runCli command :: r.1, r.2)

/-- Is an event the auth exchange? -/
def isAuthEvent : RegEvent → Bool
  | RegEvent.postAuth _ _ => true
  | _ => false

/-- Number of auth exchanges in a trace. -/
def countAuth (evs : List RegEvent) : Nat :=
  (evs.filter isAuthEvent).length

/-- The JSON body built by `save_bookmark` (bot.py lines 230-234): `url`
always, `title` only when truthy, `labels` only when non-empty. -/
structure BookmarkPayload where
  url : String
  title : Option String
  labels : Option (List String)
  deriving DecidableEq

/-- `data = {"url": url}; if title: ...; if labels: ...`. -/
def mkBookmarkPayload (url : String) (title : Option String) (labels : List String) :
    BookmarkPayload :=
  { url := url,
    title := match title with
      | some t => if t.isEmpty then none else some t
      | none => none,
    labels := if labels.isEmpty then none else some labels }

/-- Response of `POST /api/bookmarks`: status code and the `Bookmark-Id`
response header, if present. -/
structure SubmitResponse where
  status : Nat
  bookmarkId? : Option String
  deriving DecidableEq

/-- Response of `GET /api/bookmarks/{id}`: status code and the JSON body's
`title` and `href` fields (absent fields are `none`). -/
structure DetailsResponse where
  status : Nat
  title? : Option String
  href? : Option String
  deriving DecidableEq

/-- Environment of `save_bookmark`: the two backend responses. -/
structure BookmarkEnv where
  submit : SubmitResponse
  details : DetailsResponse
  deriving DecidableEq

/-- Externally visible actions of `save_bookmark`, in order.  A
`replyMarkdown` is a reply sent with `parse_mode=MARKDOWN`. -/
inductive BookmarkEvent where
  | postBookmark (payload : BookmarkPayload)
  | getDetails (bookmarkId : String)
  | reply (msg : String)
  | replyMarkdown (msg : String)
  deriving DecidableEq

/-- The reply when the details lookup after a 202 does not return 200. -/
def detailsUnavailableMsg : String := "Saved bookmark but failed to retrieve details."

/-- The reply when a 202 lacks the Bookmark-Id header. -/
def missingIdMsg : String := "Saved bookmark but missing Bookmark-Id header."

/-- The reply when the submission status is not 202. -/
def submitFailedMsg : String := "Failed to save bookmark."

/-- Embedding of `save_bookmark` (bot.py lines 228-282): submit the payload;
on 202, `bookmark_id = r.headers.get("Bookmark-Id")` must be truthy (present
and non-empty, the `if bookmark_id:` on line 250) for the details lookup; on
a 200 lookup render the confirmation with the `/md_<id>` follow-up command
(markdown form when `href` is truthy), otherwise report that details could
not be retrieved; a 202 without a truthy header value or a non-202 each get
their fixed reply. -/
def save_bookmark (env : BookmarkEnv) (url : String) (title : Option String)
    (labels : List String) : List BookmarkEvent :=
  let payload := mkBookmarkPayload url title labels
  let r := env.submit
  if r.status = 202 then
    if pyTruthy r.bookmarkId? then
      let bookmark_id := r.bookmarkId?.getD ""
      let details := env.details
      if details.status = 200 then
        let real_title := details.title?.getD "No Title"
        let href := details.href?.getD ""
        if ¬href.isEmpty then
          [BookmarkEvent.postBookmark payload, BookmarkEvent.getDetails bookmark_id,
           BookmarkEvent.replyMarkdown
             ("Saved: [" ++ real_title ++ "](" ++ href ++ ")\n\nUse `/md_" ++
              bookmark_id ++ "` to view the article\x27s markdown.")]
        else
          [BookmarkEvent.postBookmark payload, BookmarkEvent.getDetails bookmark_id,
           BookmarkEvent.reply
             ("Saved: " ++ real_title ++ "\n\nUse `/md_" ++ bookmark_id ++
              "` to view the article\x27s markdown.")]
      else
        [BookmarkEvent.postBookmark payload, BookmarkEvent.getDetails bookmark_id,
         BookmarkEvent.reply detailsUnavailableMsg]
    else
      [BookmarkEvent.postBookmark payload, BookmarkEvent.reply missingIdMsg]
  else
    [BookmarkEvent.postBookmark payload, BookmarkEvent.reply submitFailedMsg]

example : save_bookmark ⟨⟨202, some ""⟩, ⟨200, some "T", some "h"⟩⟩ "u" none [] =
    [BookmarkEvent.postBookmark (mkBookmarkPayload "u" none []),
     BookmarkEvent.reply missingIdMsg] := by decide

example : save_bookmark ⟨⟨202, none⟩, ⟨200, some "T", some "h"⟩⟩ "u" none [] =
    [BookmarkEvent.postBookmark (mkBookmarkPayload "u" none []),
     BookmarkEvent.reply missingIdMsg] := by decide

/-- What `handle_message` does with a non-command text: reply, or call
`save_bookmark` with the parse result and the stored token. -/
inductive MsgAction where
  | reply (msg : String)
  | save (url : List Char) (title : Option (List Char)) (labels : List (List Char))
      (token : String)
  deriving DecidableEq

/-- The reply when no token is stored for the requester. -/
def noTokenMsg : String :=
  "I don\x27t have your Readeck token. Set it with /token <YOUR_TOKEN> or /register <password>."

/-- The reply when the URL regex search finds no full URL match. -/
def noUrlMsg : String := "I couldn\x27t find a valid URL."

/-- The reply for a non-command text without an `http(s)://` occurrence. -/
def guidanceMsg : String :=
  "I don\x27t recognize this input.\nAfter saving a bookmark, use the provided /md_<bookmark_id> command to view its markdown."

/-- Embedding of `handle_message` (bot.py lines 123-149): strip the text, look
the requester's token up first — a falsy token replies `noTokenMsg` and stops;
then only a text containing `http://` or `https://` is parsed, a parse without
a URL replies `noUrlMsg`, a parse with one calls `save_bookmark`; any other
text gets the guidance reply. -/
def handle_message (d : PersistentDict) (userId : String) (rawText : List Char) :
    MsgAction :=
  let text := stripChars rawText
  let token := d.getItem userId
  if pyTruthy token = false then
    MsgAction.reply noTokenMsg
  else if hasHttpToken text then
    match extract_url_title_labels text with
    | (some url, title, labels) => MsgAction.save url title labels (token.getD "")
    | (none, _, _) => MsgAction.reply noUrlMsg
  else
    MsgAction.reply guidanceMsg

/-- The slicing loop of `send_long_message` (bot.py lines 304-308), with fuel:
`chunkListAux limit fuel s` takes `s[:limit]`, then recurses on `s[limit:]`.
Each step consumes at least one character when `0 < limit`, so fuel
`s.length` suffices. -/
def chunkListAux (limit : Nat) : Nat → List Char → List (List Char)
  | _, [] => []
  | 0, _ => []
  | n + 1, s => s.take limit :: chunkListAux limit n (s.drop limit)

/-- Embedding of `send_long_message` (bot.py lines 304-308): the list of
replies sent, i.e. the slices `text[start:start+4000]` for
`start in range(0, len(text), 4000)`. -/
def send_long_message (text : List Char) : List (List Char) :=
  chunkListAux 4000 text.length text

/-- Concatenation of the chunks, for the no-loss property. -/
def concatAll (chunks : List (List Char)) : List Char :=
  List.foldr (fun a b => a ++ b) [] chunks

/-- Does a maximal non-whitespace run start with `http://` or `https://`? -/
def isUrlRun (tok : List Char) : Bool :=
  "http://".data.isPrefixOf tok || "https://".data.isPrefixOf tok

/-- Maximal non-whitespace runs of a text, in order (accumulator holds the
current run reversed). -/
def runsAux : List Char → List Char → List (List Char)
  | [], acc => if acc.isEmpty then [] else [acc.reverse]
  | c :: rest, acc =>
    if isSpace c then
      if acc.isEmpty then runsAux rest [] else acc.reverse :: runsAux rest []
    else
      runsAux rest (c :: acc)

/-- Maximal non-whitespace runs of a text, in order. -/
def runs (s : List Char) : List (List Char) :=
  runsAux s []

/-- Delete the first occurrence of `pat` from `s` (the spec's "remove the URL
occurrence from the text"). -/
def removeFirst (pat : List Char) : List Char → List Char
  | [] => []
  | c :: rest =>
    if pat.isPrefixOf (c :: rest) && !pat.isEmpty then
      (c :: rest).drop pat.length
    else
      c :: removeFirst pat rest

/-- Simultaneously extract every `+word` token in first-occurrence order and
delete exactly those token occurrences from the text (the spec's "extract
every token of the form `+word` ... and strip all such tokens"), with fuel as
in `findLabelsAux`. -/
def extractAndStripAux : Nat → List Char → List (List Char) × List Char
  | _, [] => ([], [])
  | 0, s => ([], s)
  | n + 1, c :: rest =>
    if c == '+' && !(rest.takeWhile isWordChar).isEmpty then
      let r := extractAndStripAux n (rest.dropWhile isWordChar)
      (rest.takeWhile isWordChar :: r.1, r.2)
    else
      let r := extractAndStripAux n rest
      (r.1, c :: r.2)

/-- Extract and strip the `+word` tokens of a text. -/
def extractAndStrip (s : List Char) : List (List Char) × List Char :=
  extractAndStripAux s.length s

/-- Modelled from the spec's words for claim C2 (the MessageParser algorithm
of §4.2), to be compared with the source-derived `extract_url_title_labels`:
take the first maximal non-whitespace run starting with `http://` or
`https://` as the URL (none when there is no such run), remove that one URL
occurrence from the text, extract every `+word` token of the remainder as the
tags in first-occurrence order and strip exactly those tokens, and trim the
rest into the title (an all-whitespace rest yields no title). -/
def parseSpecC2 (text : List Char) :
    Option (List Char) × Option (List Char) × List (List Char) :=
  match (runs text).find? isUrlRun with
  | none => (none, none, [])
  | some url =>
    let remainder := removeFirst url text
    let r := extractAndStrip remainder
    let title := stripChars r.2
    (some url, if title.isEmpty then none else some title, r.1)

example :
    parseSpecC2 ("+a +ab https://x".data) =
      (some "https://x".data, none, ["a".data, "ab".data]) := by decide

example :
    parseSpecC2 ("https://x.com/a Title Here +news +tech".data) =
      (some "https://x.com/a".data, some "Title Here".data,
        ["news".data, "tech".data]) := by decide

/-- Following the amended claim for C2 (URL part): at one position, a URL
match is the maximal non-whitespace run from that position when a scheme
begins there followed by at least one further non-whitespace character. -/
def urlAtSpec (s : List Char) : Option (List Char) :=
  let run := s.takeWhile (fun c => !isSpace c)
  if (httpPrefix.isPrefixOf run ∧ 7 < run.length) ∨
     (httpsPrefix.isPrefixOf run ∧ 8 < run.length) then
    some run
  else
    none

/-- Following the amended claim for C2: the URL of the first position (in
increasing order) carrying a URL match. -/
def findUrlSpec (text : List Char) : Option (List Char) :=
  ((List.range text.length).filterMap (fun i => urlAtSpec (text.drop i))).head?

/-- Following the amended claim for C2 (removal part): delete every
non-overlapping occurrence of the non-empty pattern `pat`, left to right —
the direct well-founded formulation, without the fuel of `removeAllAux`. -/
def removeEvery (pat : List Char) (s : List Char) : List Char :=
  match s with
  | [] => []
  | c :: rest =>
    if h : (pat.isPrefixOf (c :: rest) && !pat.isEmpty) = true then
      removeEvery pat ((c :: rest).drop pat.length)
    else
      c :: removeEvery pat rest
termination_by s.length
decreasing_by
  · have hp : pat ≠ [] := by
      intro he
      subst he
      simp at h
    have hp2 : 0 < pat.length := List.length_pos.mpr hp
    simp only [List.length_drop, List.length_cons]
    omega
  · simp only [List.length_cons]
    omega

/-- Following the amended claim for C2 (tag part): every `+word` token in
first-occurrence order, duplicates preserved — the direct well-founded
formulation, without the fuel of `findLabelsAux`. -/
def plusTokens (s : List Char) : List (List Char) :=
  match s with
  | [] => []
  | c :: rest =>
    if (c == '+' && !(rest.takeWhile isWordChar).isEmpty) = true then
      rest.takeWhile isWordChar :: plusTokens (rest.dropWhile isWordChar)
    else
      plusTokens rest
termination_by s.length
decreasing_by
  · have hle : (rest.dropWhile isWordChar).length ≤ rest.length :=
      (List.dropWhile_suffix isWordChar).length_le
    simp only [List.length_cons]
    omega
  · simp only [List.length_cons]
    omega

/-- Following the amended claim for C2, assembled: the first-position URL
match is the URL (none when there is none); every occurrence of the URL
string is removed and the rest stripped; the `+word` tokens of that remainder
are the tags in first-occurrence order with duplicates preserved; every
occurrence of each `+tag` substring is removed in tag order (which can erase
characters inside other, overlapping tokens); the trimmed rest, when
non-empty, is the title. -/
def parseAmendedC2 (text : List Char) :
    Option (List Char) × Option (List Char) × List (List Char) :=
  match findUrlSpec text with
  | none => (none, none, [])
  | some url =>
    let after := stripChars (removeEvery url text)
    let tags := plusTokens after
    let rest := tags.foldl (fun acc tag => removeEvery ('+' :: tag) acc) after
    let title := stripChars rest
    (some url, if title.isEmpty then none else some title, tags)

theorem storeGet_storeSet_self (s : CredentialStore) (k v : String) :
    storeGet (storeSet s k v) k = some v := by
  induction s with
  | nil => simp [storeSet, storeGet]
  | cons kv rest ih =>
    obtain ⟨k0, v0⟩ := kv
    by_cases h : k0 = k
    · simp [storeSet, storeGet, h]
    · simp [storeSet, storeGet, h, ih]

theorem storeGet_storeSet_ne (s : CredentialStore) (k v k1 : String) (h : k1 ≠ k) :
    storeGet (storeSet s k v) k1 = storeGet s k1 := by
  induction s with
  | nil => simp [storeSet, storeGet, Ne.symm h]
  | cons kv rest ih =>
    obtain ⟨k0, v0⟩ := kv
    by_cases h0 : k0 = k
    · subst h0
      simp [storeSet, storeGet, h, Ne.symm h]
    · simp [storeSet, storeGet, h0, ih]

theorem concatAll_chunkListAux (limit : Nat) (hl : 0 < limit) :
    ∀ fuel s, s.length ≤ fuel → concatAll (chunkListAux limit fuel s) = s := by
  intro fuel
  induction fuel with
  | zero =>
    intro s hs
    have : s = [] := List.length_eq_zero.mp (Nat.le_zero.mp hs)
    subst this
    rfl
  | succ n ih =>
    intro s hs
    cases s with
    | nil => rfl
    | cons c rest =>
      have hdrop : ((c :: rest).drop limit).length ≤ n := by
        rw [List.length_drop]
        simp only [List.length_cons] at hs ⊢
        omega
      calc concatAll (chunkListAux limit (n + 1) (c :: rest))
          = (c :: rest).take limit ++ concatAll (chunkListAux limit n ((c :: rest).drop limit)) := rfl
        _ = (c :: rest).take limit ++ (c :: rest).drop limit := by rw [ih _ hdrop]
        _ = c :: rest := List.take_append_drop _ _

theorem chunkListAux_all_le (limit : Nat) :
    ∀ fuel s, (chunkListAux limit fuel s).all (fun c => decide (c.length ≤ limit)) = true := by
  intro fuel
  induction fuel with
  | zero =>
    intro s
    cases s <;> rfl
  | succ n ih =>
    intro s
    cases s with
    | nil => rfl
    | cons c rest =>
      simp only [chunkListAux, List.all_cons, Bool.and_eq_true, decide_eq_true_eq]
      exact ⟨List.length_take_le limit (c :: rest), ih _⟩

theorem ceil_div_chunk_step (m limit : Nat) (hm : 0 < m) (hl : 0 < limit) :
    (m + limit - 1) / limit = (m - limit + limit - 1) / limit + 1 := by
  rcases le_or_lt m limit with h | h
  · have h0 : m - limit = 0 := by omega
    rw [h0, show m + limit - 1 = (m - 1) + limit from by omega,
      Nat.add_div_right _ hl, Nat.div_eq_of_lt (by omega : m - 1 < limit),
      Nat.div_eq_of_lt (by omega : 0 + limit - 1 < limit)]
  · rw [show m + limit - 1 = (m - 1 - limit + limit) + limit from by omega,
      Nat.add_div_right _ hl,
      show m - limit + limit - 1 = (m - 1 - limit) + limit from by omega,
      Nat.add_div_right _ hl]

theorem chunkListAux_length (limit : Nat) (hl : 0 < limit) :
    ∀ fuel s, s.length ≤ fuel →
      (chunkListAux limit fuel s).length = (s.length + limit - 1) / limit := by
  intro fuel
  induction fuel with
  | zero =>
    intro s hs
    have : s = [] := List.length_eq_zero.mp (Nat.le_zero.mp hs)
    subst this
    simp only [chunkListAux, List.length_nil]
    exact (Nat.div_eq_of_lt (by omega : 0 + limit - 1 < limit)).symm
  | succ n ih =>
    intro s hs
    cases s with
    | nil =>
      simp only [chunkListAux, List.length_nil]
      exact (Nat.div_eq_of_lt (by omega : 0 + limit - 1 < limit)).symm
    | cons c rest =>
      have hdrop : ((c :: rest).drop limit).length ≤ n := by
        rw [List.length_drop]
        simp only [List.length_cons] at hs ⊢
        omega
      have hm : 0 < (c :: rest).length := by simp
      calc (chunkListAux limit (n + 1) (c :: rest)).length
          = (chunkListAux limit n ((c :: rest).drop limit)).length + 1 := by
            simp [chunkListAux]
        _ = ((c :: rest).length - limit + limit - 1) / limit + 1 := by
            rw [ih _ hdrop, List.length_drop]
        _ = ((c :: rest).length + limit - 1) / limit := by
            rw [ceil_div_chunk_step _ _ hm hl]

theorem countAuth_cons_runCli (cmd : List String) (evs : List RegEvent) :
    countAuth (RegEvent.runCli cmd :: evs) = countAuth evs := rfl

theorem countAuth_cons_runDocker (cmd : List String) (evs : List RegEvent) :
    countAuth (RegEvent.runDocker cmd :: evs) = countAuth evs := rfl

theorem countAuth_authExchange (env : RegEnv) (d : PersistentDict)
    (uid u p : String) : countAuth (authExchange env d uid u p).1 = 1 := by
  by_cases h : 200 ≤ env.authResponse.status ∧ env.authResponse.status < 300
  · rcases ht : env.authResponse.token? with _ | t
    · simp [authExchange, h, ht, countAuth, isAuthEvent]
    · by_cases he : t.isEmpty <;>
        simp [authExchange, h, ht, he, countAuth, isAuthEvent]
  · simp [authExchange, h, countAuth, isAuthEvent]

/-- C1: against the contract that the provisioning invocation is always
`user -u <username> -p <password>` with `-config <path>` inserted after `user`
exactly when configured, the code's conditional-expression precedence slip
(bot.py line 193) yields, for an unset configuration, a list without the
`readeck user` subcommand, and, for a set configuration, a list without the
`-u`/`-p` pair: the built list is always strictly shorter than the intended
one. -/
theorem C1_command_construction (cfg : Option String) (u p : String) :
    buildRegisterCommand none u p = ["-u", u, "-p", p] ∧
    buildRegisterCommand (some "conf.toml") u p =
      ["readeck", "user", "-config", "conf.toml"] ∧
    (buildRegisterCommand cfg u p).length < (intendedRegisterCommand cfg u p).length ∧
    intendedRegisterCommand none u p = ["readeck", "user", "-u", u, "-p", p] ∧
    intendedRegisterCommand (some "conf.toml") u p =
      ["readeck", "user", "-config", "conf.toml", "-u", u, "-p", p] := by
  refine ⟨rfl, rfl, ?_, rfl, rfl⟩
  cases h : pyTruthy cfg <;>
    simp [buildRegisterCommand, intendedRegisterCommand, h]

theorem length_httpPrefix : httpPrefix.length = 7 := rfl

theorem length_httpsPrefix : httpsPrefix.length = 8 := rfl

theorem isPrefixOf_http_of_https (x : List Char) :
    httpPrefix.isPrefixOf (httpsPrefix ++ x) = false := rfl

theorem isPrefixOf_https_of_https (x : List Char) :
    httpsPrefix.isPrefixOf (httpsPrefix ++ x) = true := by
  simp [httpsPrefix, List.isPrefixOf]

theorem isPrefixOf_https_of_http (x : List Char) :
    httpsPrefix.isPrefixOf (httpPrefix ++ x) = false := rfl

theorem isPrefixOf_http_of_http (x : List Char) :
    httpPrefix.isPrefixOf (httpPrefix ++ x) = true := by
  simp [httpPrefix, List.isPrefixOf]

theorem takeWhile_https_append (x : List Char) :
    (httpsPrefix ++ x).takeWhile (fun c => !isSpace c) =
      httpsPrefix ++ x.takeWhile (fun c => !isSpace c) := rfl

theorem takeWhile_http_append (x : List Char) :
    (httpPrefix ++ x).takeWhile (fun c => !isSpace c) =
      httpPrefix ++ x.takeWhile (fun c => !isSpace c) := rfl

theorem drop_eight_https_append (x : List Char) :
    (httpsPrefix ++ x).drop 8 = x := rfl

theorem drop_seven_http_append (x : List Char) :
    (httpPrefix ++ x).drop 7 = x := rfl

theorem isPrefixOf_takeWhile_false (pat s : List Char) (p : Char → Bool)
    (h : pat.isPrefixOf s = false) : pat.isPrefixOf (s.takeWhile p) = false := by
  by_contra hx
  rw [Bool.not_eq_false] at hx
  have h1 : pat <+: s.takeWhile p := List.isPrefixOf_iff_prefix.mp hx
  have h3 : pat <+: s := h1.trans (List.takeWhile_prefix p)
  rw [List.isPrefixOf_iff_prefix.mpr h3] at h
  exact absurd h (by decide)

theorem matchUrlAt_eq_urlAtSpec (s : List Char) : matchUrlAt s = urlAtSpec s := by
  by_cases h8 : httpsPrefix.isPrefixOf s = true
  · obtain ⟨x, hx⟩ := List.isPrefixOf_iff_prefix.mp h8
    rw [← hx]
    unfold matchUrlAt urlAtSpec
    simp only [isPrefixOf_https_of_https, isPrefixOf_http_of_https,
      takeWhile_https_append, drop_eight_https_append, List.length_append,
      length_httpsPrefix]
    rcases eq_or_ne (x.takeWhile (fun c => !isSpace c)) [] with htw | htw
    · rw [htw]
      simp
    · have hpos : 0 < (x.takeWhile (fun c => !isSpace c)).length :=
        List.length_pos.mpr htw
      have hIsE : (x.takeWhile (fun c => !isSpace c)).isEmpty = false := by
        cases hq : x.takeWhile (fun c => !isSpace c) with
        | nil => exact absurd hq htw
        | cons a l => rfl
      have hcond : 8 < 8 + (x.takeWhile (fun c => !isSpace c)).length := by
        omega
      simp [hIsE, hcond]
  · rw [Bool.not_eq_true] at h8
    by_cases h7 : httpPrefix.isPrefixOf s = true
    · obtain ⟨x, hx⟩ := List.isPrefixOf_iff_prefix.mp h7
      rw [← hx]
      unfold matchUrlAt urlAtSpec
      simp only [isPrefixOf_https_of_http, isPrefixOf_http_of_http,
        takeWhile_http_append, drop_seven_http_append, List.length_append,
        length_httpPrefix]
      rcases eq_or_ne (x.takeWhile (fun c => !isSpace c)) [] with htw | htw
      · rw [htw]
        simp
      · have hpos : 0 < (x.takeWhile (fun c => !isSpace c)).length :=
          List.length_pos.mpr htw
        have hIsE : (x.takeWhile (fun c => !isSpace c)).isEmpty = false := by
          cases hq : x.takeWhile (fun c => !isSpace c) with
          | nil => exact absurd hq htw
          | cons a l => rfl
        have hcond : 7 < 7 + (x.takeWhile (fun c => !isSpace c)).length := by
          omega
        simp [hIsE, hcond]
    · rw [Bool.not_eq_true] at h7
      have hr8 : httpsPrefix.isPrefixOf
          (s.takeWhile (fun c => !isSpace c)) = false :=
        isPrefixOf_takeWhile_false _ _ _ h8
      have hr7 : httpPrefix.isPrefixOf
          (s.takeWhile (fun c => !isSpace c)) = false :=
        isPrefixOf_takeWhile_false _ _ _ h7
      unfold matchUrlAt urlAtSpec
      simp [h8, h7, hr8, hr7]

theorem findUrl_eq_findUrlSpec (text : List Char) :
    findUrl text = findUrlSpec text := by
  induction text with
  | nil => rfl
  | cons c rest ih =>
    have hcomp : ((fun i => urlAtSpec ((c :: rest).drop i)) ∘ Nat.succ) =
        (fun i => urlAtSpec (rest.drop i)) := by
      funext i
      simp [List.drop_succ_cons]
    rw [findUrlSpec, List.length_cons, List.range_succ_eq_map,
      List.filterMap_cons, List.filterMap_map, hcomp]
    simp only [findUrl, matchUrlAt_eq_urlAtSpec, List.drop_zero]
    cases h : urlAtSpec (c :: rest) with
    | none => simpa [findUrlSpec] using ih
    | some u => rfl

theorem removeAllAux_eq_removeEvery (pat : List Char) :
    ∀ fuel s, s.length ≤ fuel → removeAllAux pat fuel s = removeEvery pat s := by
  intro fuel
  induction fuel with
  | zero =>
    intro s hs
    have hnil : s = [] := List.length_eq_zero.mp (Nat.le_zero.mp hs)
    subst hnil
    simp [removeAllAux, removeEvery]
  | succ n ih =>
    intro s hs
    cases s with
    | nil => simp [removeAllAux, removeEvery]
    | cons c rest =>
      by_cases h : (pat.isPrefixOf (c :: rest) && !pat.isEmpty) = true
      · have hp : pat ≠ [] := by
          intro he
          subst he
          simp at h
        have hp1 : 0 < pat.length := List.length_pos.mpr hp
        rw [removeEvery]
        simp only [removeAllAux, h, if_true, dif_pos]
        exact ih _ (by
          simp only [List.length_drop, List.length_cons] at hs ⊢
          omega)
      · rw [removeEvery]
        simp only [removeAllAux, h, if_false, dif_neg, Bool.not_eq_true] at h ⊢
        simp only [h, if_false, dif_neg, Bool.false_eq_true, not_false_eq_true]
        exact congrArg (c :: ·) (ih rest (by
          simp only [List.length_cons] at hs
          omega))

theorem findLabelsAux_eq_plusTokens :
    ∀ fuel s, s.length ≤ fuel → findLabelsAux fuel s = plusTokens s := by
  intro fuel
  induction fuel with
  | zero =>
    intro s hs
    have hnil : s = [] := List.length_eq_zero.mp (Nat.le_zero.mp hs)
    subst hnil
    simp [findLabelsAux, plusTokens]
  | succ n ih =>
    intro s hs
    cases s with
    | nil => simp [findLabelsAux, plusTokens]
    | cons c rest =>
      have hrest : rest.length ≤ n := by
        simp only [List.length_cons] at hs
        omega
      by_cases h : (c == '+' && !(rest.takeWhile isWordChar).isEmpty) = true
      · rw [plusTokens]
        simp only [findLabelsAux, h, if_true]
        exact congrArg _ (ih _ (le_trans
          (List.dropWhile_suffix isWordChar).length_le hrest))
      · rw [plusTokens]
        simp only [findLabelsAux, Bool.not_eq_true] at h ⊢
        simp only [h, Bool.false_eq_true, if_false]
        exact ih rest hrest

/-- C2 counterexample: three inputs where the claimed algorithm and the code
disagree — `"+a +ab https://x"` (the code's global substring replacement of
`+a` erases the prefix of the separate token `+ab`, leaving title `"b"` where
the claim leaves no title), `"http://a x http://a"` (the code removes every
occurrence of the URL string, the claim removes only the found occurrence),
and `"xhttps://a b"` (the code's URL match begins in the middle of the
non-whitespace run `xhttps://a`, while no maximal run starts with a scheme,
so the claim yields none). -/
theorem C2_parser_counterexample :
    extract_url_title_labels ("+a +ab https://x".data) =
      (some "https://x".data, some "b".data, ["a".data, "ab".data]) ∧
    parseSpecC2 ("+a +ab https://x".data) =
      (some "https://x".data, none, ["a".data, "ab".data]) ∧
    extract_url_title_labels ("http://a x http://a".data) =
      (some "http://a".data, some "x".data, []) ∧
    parseSpecC2 ("http://a x http://a".data) =
      (some "http://a".data, some "x http://a".data, []) ∧
    extract_url_title_labels ("xhttps://a b".data) =
      (some "https://a".data, some "x b".data, []) ∧
    parseSpecC2 ("xhttps://a b".data) = (none, none, []) :=
  ⟨by decide, by decide, by decide, by decide, by decide, by decide⟩

/-- C2 (amended): for every input text the parser behaves as the amended
algorithm `parseAmendedC2` — the URL is the maximal non-whitespace run from
the first position where a scheme begins followed by a non-whitespace
character (none when there is no such position), every occurrence of the URL
string is removed, the `+word` tokens of the stripped remainder are the tags
in first-occurrence order with duplicates preserved, every occurrence of each
`+tag` substring is removed in order, and the trimmed rest is the title —
and in particular the documented example, the no-URL input and the
duplicate-tag input evaluate as the spec states. -/
theorem C2_parser_amended (text : List Char) :
    extract_url_title_labels text = parseAmendedC2 text ∧
    extract_url_title_labels ("https://x.com/a Title Here +news +tech".data) =
      (some "https://x.com/a".data, some "Title Here".data,
        ["news".data, "tech".data]) ∧
    extract_url_title_labels ("no url here".data) = (none, none, []) ∧
    extract_url_title_labels ("https://x +tag +tag".data) =
      (some "https://x".data, none, ["tag".data, "tag".data]) := by
  refine ⟨?_, by decide, by decide, by decide⟩
  have hre : ∀ pat s, removeAll pat s = removeEvery pat s :=
    fun pat s => removeAllAux_eq_removeEvery pat s.length s le_rfl
  have hfl : ∀ s, findLabels s = plusTokens s :=
    fun s => findLabelsAux_eq_plusTokens s.length s le_rfl
  unfold extract_url_title_labels parseAmendedC2
  rw [findUrl_eq_findUrlSpec]
  cases findUrlSpec text with
  | none => rfl
  | some url => simp only [hre, hfl]

/-- C4: `/register` argument parsing — zero arguments use the requester's
user id for both username and password, one argument is the password, two are
the explicit pair, three or more yield the usage error without invoking the
provisioning flow. -/
theorem C4_register_arity (uid a b c : String) (rest : List String) :
    register_command uid [] = RegisterParse.run uid uid ∧
    register_command uid [a] = RegisterParse.run uid a ∧
    register_command uid [a, b] = RegisterParse.run a b ∧
    register_command uid (a :: b :: c :: rest) = RegisterParse.usage registerUsageMsg :=
  ⟨rfl, rfl, rfl, rfl⟩

/-- C6: setting a credential and reading it back returns that credential,
both on the live instance and on a fresh instance loaded from the snapshot
the set persisted. -/
theorem C6_set_get_roundtrip (d : PersistentDict) (u c : String) :
    (d.setItem u c).getItem u = some c ∧
    (PersistentDict.load (d.setItem u c).file).getItem u = some c := by
  constructor
  · simp [PersistentDict.setItem, PersistentDict.getItem, storeGet_storeSet_self]
  · simp [PersistentDict.setItem, PersistentDict.getItem, PersistentDict.load,
      storeGet_storeSet_self]

/-- C7: the chunking of `send_long_message` loses no character (the chunks
concatenate back to the text, hence are contiguous, ordered and
non-overlapping), each chunk is at most the configured limit of 4000, the
number of chunks is `ceil(length / 4000)`, and 4000 is below the transport's
4096 hard cap. -/
theorem C7_chunking (text : List Char) :
    concatAll (send_long_message text) = text ∧
    (send_long_message text).all (fun c => decide (c.length ≤ 4000)) = true ∧
    (send_long_message text).length = (text.length + 4000 - 1) / 4000 ∧
    4000 < 4096 :=
  ⟨concatAll_chunkListAux 4000 (by omega) text.length text le_rfl,
   chunkListAux_all_le 4000 text.length text,
   chunkListAux_length 4000 (by omega) text.length text le_rfl,
   by omega⟩

/-- C10: `/token` stores its single argument verbatim under the requester's
user id (overwriting any previous entry, as the read-back shows) and any
other arity replies with the usage message leaving the store unchanged. -/
theorem C10_token_arity (d : PersistentDict) (uid tok a b : String) (rest : List String) :
    token_command d uid [] = (d, tokenUsageMsg) ∧
    token_command d uid (a :: b :: rest) = (d, tokenUsageMsg) ∧
    token_command d uid [tok] = (d.setItem uid tok, tokenSavedMsg) ∧
    (d.setItem uid tok).getItem uid = some tok := by
  refine ⟨rfl, rfl, rfl, ?_⟩
  simp [PersistentDict.setItem, PersistentDict.getItem, storeGet_storeSet_self]

/-- C3: when the CLI attempt fails, the Docker attempt follows it in the
trace (strictly sequentially); if Docker also fails the flow stops with the
Docker stderr in the failure reply, no auth exchange and an unchanged store;
if Docker succeeds the auth exchange happens exactly once. -/
theorem C3_sequential_fallback (cfg : Option String) (env : RegEnv)
    (d : PersistentDict) (uid u p : String)
    (hcli : env.cliResult.returncode ≠ 0) :
    (register_and_fetch_token cfg env d uid u p).1.take 2 =
      [RegEvent.runCli (buildRegisterCommand cfg u p),
       RegEvent.runDocker (dockerCommand u p)] ∧
    (env.dockerResult.returncode ≠ 0 →
      (register_and_fetch_token cfg env d uid u p).1 =
        [RegEvent.runCli (buildRegisterCommand cfg u p),
         RegEvent.runDocker (dockerCommand u p),
         RegEvent.reply (registrationFailedMsg env.dockerResult.stderr)] ∧
      countAuth (register_and_fetch_token cfg env d uid u p).1 = 0 ∧
      (register_and_fetch_token cfg env d uid u p).2 = d) ∧
    (env.dockerResult.returncode = 0 →
      countAuth (register_and_fetch_token cfg env d uid u p).1 = 1) := by
  by_cases hdock : env.dockerResult.returncode = 0
  · refine ⟨?_, fun h => absurd hdock h, fun _ => ?_⟩
    · simp [register_and_fetch_token, hcli, hdock]
    · simp only [register_and_fetch_token, hcli, if_true, hdock, ite_not, if_pos]
      simp [countAuth_cons_runCli, countAuth_cons_runDocker, countAuth_authExchange]
  · refine ⟨?_, fun _ => ⟨?_, ?_, ?_⟩, fun h => absurd h hdock⟩
    · simp [register_and_fetch_token, hcli, hdock]
    · simp [register_and_fetch_token, hcli, hdock]
    · simp [register_and_fetch_token, hcli, hdock, countAuth, isAuthEvent]
    · simp [register_and_fetch_token, hcli, hdock]

/-- Witness for C3: a concrete environment where both attempts fail (trace,
no auth, unchanged store) and one where only the CLI fails (one auth
exchange). -/
theorem C3_sequential_fallback_witness :
    ((register_and_fetch_token none ⟨⟨1, "cli boom"⟩, ⟨1, "docker boom"⟩, ⟨200, some "tk"⟩⟩
        (PersistentDict.load none) "7" "alice" "pw").1 =
      [RegEvent.runCli (buildRegisterCommand none "alice" "pw"),
       RegEvent.runDocker (dockerCommand "alice" "pw"),
       RegEvent.reply (registrationFailedMsg "docker boom")] ∧
     countAuth (register_and_fetch_token none ⟨⟨1, "cli boom"⟩, ⟨1, "docker boom"⟩, ⟨200, some "tk"⟩⟩
        (PersistentDict.load none) "7" "alice" "pw").1 = 0 ∧
     (register_and_fetch_token none ⟨⟨1, "cli boom"⟩, ⟨1, "docker boom"⟩, ⟨200, some "tk"⟩⟩
        (PersistentDict.load none) "7" "alice" "pw").2 = PersistentDict.load none) ∧
    countAuth (register_and_fetch_token none ⟨⟨1, "cli boom"⟩, ⟨0, ""⟩, ⟨200, some "tk"⟩⟩
        (PersistentDict.load none) "7" "alice" "pw").1 = 1 :=
  ⟨(C3_sequential_fallback none ⟨⟨1, "cli boom"⟩, ⟨1, "docker boom"⟩, ⟨200, some "tk"⟩⟩
      (PersistentDict.load none) "7" "alice" "pw" (by decide)).2.1 (by decide),
   (C3_sequential_fallback none ⟨⟨1, "cli boom"⟩, ⟨0, ""⟩, ⟨200, some "tk"⟩⟩
      (PersistentDict.load none) "7" "alice" "pw" (by decide)).2.2 (by decide)⟩

/-- C5: after a successful provisioning attempt and a 2xx auth response — a
falsy `token` field leaves the store untouched and replies with the distinct
missing-token message; a truthy token is stored under the requesting user's
id (not the supplied username: any other key reads back unchanged). -/
theorem C5_token_exchange (cfg : Option String) (env : RegEnv) (d : PersistentDict)
    (uid u p : String)
    (hprov : env.cliResult.returncode = 0 ∨ env.dockerResult.returncode = 0)
    (h2xx : 200 ≤ env.authResponse.status ∧ env.authResponse.status < 300) :
    (pyTruthy env.authResponse.token? = false →
      (register_and_fetch_token cfg env d uid u p).2 = d ∧
      RegEvent.reply tokenMissingMsg ∈ (register_and_fetch_token cfg env d uid u p).1) ∧
    (∀ t, env.authResponse.token? = some t → t.isEmpty = false →
      (register_and_fetch_token cfg env d uid u p).2 = d.setItem uid t ∧
      (register_and_fetch_token cfg env d uid u p).2.getItem uid = some t ∧
      (∀ q, q ≠ uid →
        (register_and_fetch_token cfg env d uid u p).2.getItem q = d.getItem q)) := by
  have key : (register_and_fetch_token cfg env d uid u p).2 =
      (authExchange env d uid u p).2 ∧
      ∀ e, e ∈ (authExchange env d uid u p).1 →
        e ∈ (register_and_fetch_token cfg env d uid u p).1 := by
    by_cases hcli : env.cliResult.returncode = 0
    · constructor
      · simp [register_and_fetch_token, hcli]
      · intro e he
        simp [register_and_fetch_token, hcli]
        right
        exact he
    · have hdock : env.dockerResult.returncode = 0 := hprov.resolve_left hcli
      constructor
      · simp [register_and_fetch_token, hcli, hdock]
      · intro e he
        simp [register_and_fetch_token, hcli, hdock]
        right
        right
        exact he
  constructor
  · intro htok
    rcases ht : env.authResponse.token? with _ | t
    · refine ⟨key.1.trans ?_, key.2 _ ?_⟩
      · simp [authExchange, h2xx, ht]
      · simp [authExchange, h2xx, ht]
    · have he : t.isEmpty = true := by
        have := htok
        rw [ht] at this
        simpa [pyTruthy] using this
      refine ⟨key.1.trans ?_, key.2 _ ?_⟩
      · simp [authExchange, h2xx, ht, he]
      · simp [authExchange, h2xx, ht, he]
  · intro t ht he
    have h2 : (register_and_fetch_token cfg env d uid u p).2 = d.setItem uid t := by
      refine key.1.trans ?_
      simp [authExchange, h2xx, ht, he]
    refine ⟨h2, ?_, ?_⟩
    · rw [h2]
      simp [PersistentDict.setItem, PersistentDict.getItem, storeGet_storeSet_self]
    · intro q hq
      rw [h2]
      simp [PersistentDict.setItem, PersistentDict.getItem]
      exact storeGet_storeSet_ne _ _ _ _ hq

/-- Witness for C5: a 204 response with no token leaves a concrete store
unchanged and replies with the missing-token message; a 200 response with
token `"tk"` stores it under the requester's id `"7"`, not under the supplied
username `"alice"`. -/
theorem C5_token_exchange_witness :
    ((register_and_fetch_token none ⟨⟨0, ""⟩, ⟨1, ""⟩, ⟨204, none⟩⟩
        ⟨[("7", "old")], none⟩ "7" "alice" "pw").2 = ⟨[("7", "old")], none⟩ ∧
     RegEvent.reply tokenMissingMsg ∈
       (register_and_fetch_token none ⟨⟨0, ""⟩, ⟨1, ""⟩, ⟨204, none⟩⟩
        ⟨[("7", "old")], none⟩ "7" "alice" "pw").1) ∧
    (register_and_fetch_token none ⟨⟨0, ""⟩, ⟨1, ""⟩, ⟨200, some "tk"⟩⟩
        ⟨[], none⟩ "7" "alice" "pw").2 =
      (⟨[], none⟩ : PersistentDict).setItem "7" "tk" ∧
    (register_and_fetch_token none ⟨⟨0, ""⟩, ⟨1, ""⟩, ⟨200, some "tk"⟩⟩
        ⟨[], none⟩ "7" "alice" "pw").2.getItem "7" = some "tk" ∧
    (register_and_fetch_token none ⟨⟨0, ""⟩, ⟨1, ""⟩, ⟨200, some "tk"⟩⟩
        ⟨[], none⟩ "7" "alice" "pw").2.getItem "alice" =
      (⟨[], none⟩ : PersistentDict).getItem "alice" :=
  ⟨(C5_token_exchange none ⟨⟨0, ""⟩, ⟨1, ""⟩, ⟨204, none⟩⟩ ⟨[("7", "old")], none⟩
      "7" "alice" "pw" (Or.inl rfl) (by decide)).1 (by decide),
   ((C5_token_exchange none ⟨⟨0, ""⟩, ⟨1, ""⟩, ⟨200, some "tk"⟩⟩ ⟨[], none⟩
      "7" "alice" "pw" (Or.inl rfl) (by decide)).2 "tk" rfl (by decide)).1,
   ((C5_token_exchange none ⟨⟨0, ""⟩, ⟨1, ""⟩, ⟨200, some "tk"⟩⟩ ⟨[], none⟩
      "7" "alice" "pw" (Or.inl rfl) (by decide)).2 "tk" rfl (by decide)).2.1,
   ((C5_token_exchange none ⟨⟨0, ""⟩, ⟨1, ""⟩, ⟨200, some "tk"⟩⟩ ⟨[], none⟩
      "7" "alice" "pw" (Or.inl rfl) (by decide)).2 "tk" rfl (by decide)).2.2
     "alice" (by decide)⟩

/-- C8 counterexample: for a 202 submission with `Bookmark-Id: 42` and a 500
details lookup, the code replies only the fixed string
`"Saved bookmark but failed to retrieve details."`, which does not mention
the `md_` follow-up command at all — contrary to the claim that the user is
told the id-based follow-up command is still usable. -/
theorem C8_details_counterexample :
    save_bookmark ⟨⟨202, some "42"⟩, ⟨500, none, none⟩⟩ "https://x" none [] =
      [BookmarkEvent.postBookmark (mkBookmarkPayload "https://x" none []),
       BookmarkEvent.getDetails "42",
       BookmarkEvent.reply detailsUnavailableMsg] ∧
    listContains ("md_".data) (detailsUnavailableMsg.data) = false ∧
    listContains ("42".data) (detailsUnavailableMsg.data) = false :=
  ⟨by decide, by decide, by decide⟩

/-- C8 (amended): a 202 submission carrying a non-empty Bookmark-Id header
value whose immediate details lookup is non-200 results in the
DetailsUnavailable outcome — the lookup is attempted for that id and the user
gets the fixed saved-but-unconfirmed reply, which does not mention the
follow-up command. -/
theorem C8_details_unavailable (env : BookmarkEnv) (url : String)
    (title : Option String) (labels : List String) (bid : String)
    (h202 : env.submit.status = 202) (hid : env.submit.bookmarkId? = some bid)
    (hbid : bid.isEmpty = false) (hdet : env.details.status ≠ 200) :
    save_bookmark env url title labels =
      [BookmarkEvent.postBookmark (mkBookmarkPayload url title labels),
       BookmarkEvent.getDetails bid,
       BookmarkEvent.reply detailsUnavailableMsg] := by
  simp [save_bookmark, h202, hid, pyTruthy, hbid, hdet]

/-- Witness for C8 (amended) at a concrete environment. -/
theorem C8_details_unavailable_witness :
    save_bookmark ⟨⟨202, some "99"⟩, ⟨404, none, none⟩⟩ "https://e.org" none [] =
      [BookmarkEvent.postBookmark (mkBookmarkPayload "https://e.org" none []),
       BookmarkEvent.getDetails "99",
       BookmarkEvent.reply detailsUnavailableMsg] :=
  C8_details_unavailable ⟨⟨202, some "99"⟩, ⟨404, none, none⟩⟩ "https://e.org"
    none [] "99" rfl rfl (by decide) (by decide)

/-- C9 counterexample: with no stored credential and the URL-free text
`"hello"`, the code replies with the no-credential message — not with the
claimed parser-driven "no URL found" reply, because the credential is checked
before any parsing. -/
theorem C9_order_counterexample :
    handle_message (PersistentDict.load none) "7" ("hello".data) =
      MsgAction.reply noTokenMsg ∧
    MsgAction.reply noTokenMsg ≠ MsgAction.reply noUrlMsg ∧
    MsgAction.reply noTokenMsg ≠ MsgAction.reply guidanceMsg :=
  ⟨by decide, by decide, by decide⟩

/-- C9 (amended): a non-command text yields the no-credential reply exactly
when the requester's stored token is falsy, regardless of content; with a
stored credential the flow then examines the text — no `http(s)://`
occurrence yields the guidance reply, a parse that finds a URL leads to the
`save_bookmark` call with the parse result and the stored token, and an
`http(s)://` occurrence whose parse finds no full URL yields the "no URL"
reply; conversely a `save_bookmark` call or a "no URL" reply can only arise
that way. -/
theorem C9_credential_before_parse (d : PersistentDict) (uid : String)
    (text : List Char) :
    (handle_message d uid text = MsgAction.reply noTokenMsg ↔
      pyTruthy (d.getItem uid) = false) ∧
    (∀ t, d.getItem uid = some t → t.isEmpty = false →
      (hasHttpToken (stripChars text) = false →
        handle_message d uid text = MsgAction.reply guidanceMsg) ∧
      (∀ url title labels, hasHttpToken (stripChars text) = true →
        extract_url_title_labels (stripChars text) = (some url, title, labels) →
        handle_message d uid text = MsgAction.save url title labels t) ∧
      (hasHttpToken (stripChars text) = true →
        (extract_url_title_labels (stripChars text)).1 = none →
        handle_message d uid text = MsgAction.reply noUrlMsg)) ∧
    (∀ url title labels tok,
      handle_message d uid text = MsgAction.save url title labels tok →
      pyTruthy (d.getItem uid) = true ∧
      extract_url_title_labels (stripChars text) = (some url, title, labels) ∧
      d.getItem uid = some tok) ∧
    (handle_message d uid text = MsgAction.reply noUrlMsg →
      pyTruthy (d.getItem uid) = true ∧
      hasHttpToken (stripChars text) = true ∧
      (extract_url_title_labels (stripChars text)).1 = none) := by
  have hne1 : noTokenMsg ≠ noUrlMsg := by decide
  have hne2 : guidanceMsg ≠ noTokenMsg := by decide
  have hne3 : guidanceMsg ≠ noUrlMsg := by decide
  cases hT : pyTruthy (d.getItem uid) with
  | false =>
    have hhandle : handle_message d uid text = MsgAction.reply noTokenMsg := by
      simp [handle_message, hT]
    refine ⟨?_, ?_, ?_, ?_⟩
    · simp [hhandle]
    · intro t hg ht
      rw [hg] at hT
      simp [pyTruthy, ht] at hT
    · intro url title labels tok h
      rw [hhandle] at h
      simp at h
    · intro h
      rw [hhandle] at h
      simp only [MsgAction.reply.injEq] at h
      exact absurd h hne1
  | true =>
    have hsome : ∃ s, d.getItem uid = some s ∧ s.isEmpty = false := by
      rcases hg : d.getItem uid with _ | s
      · rw [hg] at hT
        simp [pyTruthy] at hT
      · rw [hg] at hT
        simp only [pyTruthy, Bool.not_eq_true'] at hT
        exact ⟨s, rfl, hT⟩
    rcases hsome with ⟨s, hg, hs⟩
    cases hH : hasHttpToken (stripChars text) with
    | false =>
      have hhandle : handle_message d uid text = MsgAction.reply guidanceMsg := by
        simp [handle_message, hT, hH]
      refine ⟨?_, ?_, ?_, ?_⟩
      · simp [hhandle, hne2]
      · intro t hg2 ht2
        refine ⟨fun _ => hhandle, ?_, ?_⟩
        · intro url title labels hfalse _
          simp at hfalse
        · intro hfalse _
          simp at hfalse
      · intro url title labels tok h
        rw [hhandle] at h
        simp at h
      · intro h
        rw [hhandle] at h
        simp only [MsgAction.reply.injEq] at h
        exact absurd h hne3
    | true =>
      rcases hE : extract_url_title_labels (stripChars text) with ⟨u?, t?, ls⟩
      cases u? with
      | none =>
        have hhandle : handle_message d uid text = MsgAction.reply noUrlMsg := by
          simp [handle_message, hT, hH, hE]
        refine ⟨?_, ?_, ?_, ?_⟩
        · simp [hhandle, hne1.symm]
        · intro t hg2 ht2
          refine ⟨?_, ?_, fun _ _ => hhandle⟩
          · intro hfalse
            simp at hfalse
          · intro url title labels _ hE2
            simp at hE2
        · intro url title labels tok h
          rw [hhandle] at h
          simp at h
        · intro _
          exact ⟨rfl, rfl, rfl⟩
      | some u =>
        have hhandle : handle_message d uid text = MsgAction.save u t? ls s := by
          simp [handle_message, hT, hH, hE, hg, pyTruthy, hs]
        refine ⟨?_, ?_, ?_, ?_⟩
        · rw [hhandle]
          simp [hT]
        · intro t hg2 ht2
          have hts : s = t := by
            rw [hg] at hg2
            exact Option.some.inj hg2
          subst hts
          refine ⟨?_, ?_, ?_⟩
          · intro hfalse
            simp at hfalse
          · intro url title labels _ hE2
            simp only [Prod.mk.injEq, Option.some.injEq] at hE2
            obtain ⟨hu, ht', hl⟩ := hE2
            subst hu
            subst ht'
            subst hl
            exact hhandle
          · intro _ hnone
            simp at hnone
        · intro url title labels tok h
          rw [hhandle] at h
          simp only [MsgAction.save.injEq] at h
          obtain ⟨h1, h2, h3, h4⟩ := h
          subst h1
          subst h2
          subst h3
          subst h4
          exact ⟨rfl, rfl, hg⟩
        · intro h
          rw [hhandle] at h
          simp at h

/-- Witness for C9 (amended): a concrete store with a token for user `"7"`
and the text `"https://a"`, which `handle_message` turns into a bookmark
call with the parse result and that token. -/
theorem C9_credential_before_parse_witness :
    handle_message ⟨[("7", "tok")], none⟩ "7" ("https://a".data) =
      MsgAction.save ("https://a".data) none [] "tok" :=
  (((C9_credential_before_parse ⟨[("7", "tok")], none⟩ "7"
        ("https://a".data)).2.1 "tok" (by decide) (by decide)).2.1)
    ("https://a".data) none [] (by decide) (by decide)
